import Mathlib

/-
Verification of the generic training loop of cytoself_varchamp
(src/cytoself/trainer/basetrainer.py, class BaseTrainer).

Shallow embedding conventions:
* Python floats are modelled as exact rationals.
* The metrics ledger self.losses (a dict from key to list of floats) is an
  association list with unique keys kept in insertion order.
* A model is abstracted to an opaque id; a batch is abstracted to the tuple
  of per-term loss values that calc_loss_one_batch produces for it, since the
  trainer only ever consumes those scalars.
* Python exceptions are modelled with Except String, carrying the message.
* Correctly formed tqdm progress-bar decorations (calc_val_loss, line 295)
  are elided; they do not change which elements are iterated. The MALFORMED
  call in train_one_epoch (line 213), which passes desc to enumerate itself
  and therefore raises TypeError before any iteration, is modelled as that
  error.
-/

/-- Metrics ledger, the dict self.losses of BaseTrainer: metric key to the
ordered series of recorded values. -/
abbrev Ledger := List (String × List ℚ)

/-- Series lookup in the ledger; a missing key gives the empty series. -/
def lookupLed : Ledger → String → List ℚ
  | [], _ => []
  | (k, vs) :: rest, key => if k = key then vs else lookupLed rest key

/-- Membership-aware lookup, the Python test key in self.losses. -/
def lookupEntry : Ledger → String → Option (List ℚ)
  | [], _ => none
  | (k, vs) :: rest, key => if k = key then some vs else lookupEntry rest key

/-- BaseTrainer._adaptive_record_metrics: append to the series of an existing
key, or create the key with a one-element series. -/
def adaptive_record_metrics : Ledger → String → ℚ → Ledger
  | [], key, v => [(key, [v])]
  | (k, vs) :: rest, key, v =>
      if k = key then (k, vs ++ [v]) :: rest
      else (k, vs) :: adaptive_record_metrics rest key v

/-- One value paired with a metric name inside record_metrics: either a bare
float or a list of floats. -/
inductive LossVal
  | scalar (x : ℚ)
  | vec (xs : List ℚ)
deriving Repr, DecidableEq

/-- The argument of record_metrics, Union float list in the source. -/
inductive MetricsArg
  | single (x : ℚ)
  | multi (xs : List LossVal)
deriving Repr, DecidableEq

/-- Loop body of record_metrics for one name/value pair: a list value appends
element i under key phase_name(i+1) (1-indexed), a scalar appends under
phase_name. -/
def recordOne (led : Ledger) (phase n : String) : LossVal → Ledger
  | .scalar x => adaptive_record_metrics led (phase ++ "_" ++ n) x
  | .vec xs =>
      (xs.enum).foldl
        (fun l p => adaptive_record_metrics l (phase ++ "_" ++ n ++ toString (p.1 + 1)) p.2) led

/-- BaseTrainer.record_metrics after the bare scalar has been listified:
zip the fixed metric names with the values and dispatch per pair. -/
def recordPairs (names : List String) (metrics : List LossVal) (phase : String)
    (led : Ledger) : Ledger :=
  (List.zip names metrics).foldl (fun l p => recordOne l phase p.1 p.2) led

/-- BaseTrainer.record_metrics: a non-list argument is first wrapped into a
one-element list. -/
def record_metrics (names : List String) (arg : MetricsArg) (phase : String)
    (led : Ledger) : Ledger :=
  match arg with
  | .single x => recordPairs names [.scalar x] phase led
  | .multi xs => recordPairs names xs phase led

/-- Accumulated per-term sums over the batches of one epoch, the running
_metrics list of calc_val_loss: starts as zeros of length len(metrics_names),
and each batch contributes via a truncating zip, exactly as the list
comprehension with zip(_metrics, _vloss) does. (train_one_epoch contains the
same comprehension, but never reaches it — see train_one_epoch.) -/
def accumulateLosses (names : List String) (batches : List (List ℚ)) : List ℚ :=
  batches.foldl (fun ms b => List.zipWith (fun m l => m + l) ms b)
    (List.replicate names.length (0 : ℚ))

/-- BaseTrainer.train_one_epoch: raises ValueError with message
model is not defined. when no model is bound. With a bound model, line 213
reads for i, _batch in tqdm(enumerate(data_loader, desc='Train')) — the desc
keyword is passed to enumerate, not tqdm, and Python's enumerate accepts only
iterable and start, so the for statement raises TypeError before any batch is
processed, on every call. The loop body, the division of the sums by the
final index i, and the recording under phase train are unreachable dead code,
and no state is mutated. -/
def train_one_epoch (names : List String) (model : Option ℕ) (batches : List (List ℚ))
    (led : Ledger) : Except String Ledger :=
  match model with
  | none => Except.error "model is not defined."
  | some _ =>
      Except.error "TypeError: desc is an invalid keyword argument for enumerate()"

/-- BaseTrainer.calc_val_loss: same model check and per-batch accumulation as
train_one_epoch, forward only, and the accumulated sums are recorded under
phase val WITHOUT any division by the batch count. -/
def calc_val_loss (names : List String) (model : Option ℕ) (batches : List (List ℚ))
    (led : Ledger) : Except String Ledger :=
  match model with
  | none => Except.error "model is not defined."
  | some _ =>
      Except.ok (record_metrics names
        (MetricsArg.multi ((accumulateLosses names batches).map LossVal.scalar)) "val" led)

/-- BaseTrainer.set_optimizer: raises ValueError when self.model is falsy,
otherwise constructs the optimizer over the bound model (abstracted to the
model id; the keyword filtering by signature introspection is elided). -/
def set_optimizer (model : Option ℕ) : Except String ℕ :=
  match model with
  | none => Except.error "self.model attribute is not initialized..."
  | some m => Except.ok m

/-- The os.path.join of the relative POSIX paths this trainer builds. -/
def pyJoin (a b : String) : String :=
  if a = "" then b else if a.endsWith "/" then a ++ b else a ++ "/" ++ b

/-- BaseTrainer.init_savepath: the five fixed subdirectories created under
the home path, role name mapped to path. -/
def init_savepath (homepath : String) : List (String × String) :=
  ["checkpoints", "embeddings", "ft_analysis", "umaps", "visualization"].map
    (fun d => (d, pyJoin homepath d))

/-- The file path that fit persists the best-model snapshot to at
termination: join of homepath itself (not the checkpoints directory) with
model_ followed by current_epoch + 1 and the .pt suffix. -/
def fit_save_path (homepath : String) (current_epoch : ℕ) : String :=
  pyJoin homepath ("model_" ++ toString (current_epoch + 1) ++ ".pt")

/-- Leading-piece test on character lists. -/
def charsLead : List Char → List Char → Bool
  | [], _ => true
  | _ :: _, [] => false
  | c :: cs, d :: ds => c = d && charsLead cs ds

/-- Substring occurrence test on character lists. -/
def charsContain : List Char → List Char → Bool
  | [], pat => pat.isEmpty
  | c :: t, pat => charsLead pat (c :: t) || charsContain t pat

/-- Does path s lie textually under the leading piece p. -/
def strStarts (p s : String) : Bool := charsLead p.data s.data

/-- The Python substring test pat in s used by write_on_tensorboard. -/
def strContains (s pat : String) : Bool := charsContain s.data pat.data

/-- The dict that write_on_tensorboard pushes to the sink: every ledger entry
whose key does NOT contain the substring test (not: whose key is not a val
key), mapped to its latest recorded value val[-1]. An empty series would be
an IndexError in Python; it cannot arise from record_metrics and is given the
junk value 0 here. -/
def write_payload (led : Ledger) : List (String × ℚ) :=
  led.filterMap
    (fun kv => if strContains kv.1 "test" then none else some (kv.1, kv.2.getLastD 0))

/-- The tag write_on_tensorboard keys a push by: current_epoch + 1. -/
def tb_tag (current_epoch : ℕ) : ℕ := current_epoch + 1

/-- The training hyperparameters read by fit and _reduce_lr_on_plateau,
after _default_train_args filled the defaults. -/
structure TrainArgs where
  reducelr_patience : ℕ
  reducelr_increment : ℚ
  earlystop_patience : ℕ
  min_lr : ℚ
  max_epochs : ℕ
deriving Repr, DecidableEq

/-- The comparison _vloss < best_vloss, where best_vloss may be torch.inf
(modelled as none): every finite value is below infinity. -/
def vltBest (v : ℚ) : Option ℚ → Bool
  | none => true
  | some b => decide (v < b)

/-- BaseTrainer._reduce_lr_on_plateau on the current learning rate and the
no-improve counter; the source mutates the optimizer learning rate and
returns the counter, modelled here as returning both. The optimizer-missing
ValueError branch is unreachable from fit, which requires a bound model, and
binding a model always sets the optimizer. -/
def reduce_lr_on_plateau (args : TrainArgs) (lr : ℚ) (count : ℕ) : ℚ × ℕ :=
  if args.reducelr_patience ≤ count then
    if args.min_lr < lr then (lr * args.reducelr_increment, 0)
    else (lr, count)
  else (lr, count)

/-- The per-epoch mutable state of fit. best_model is the opaque snapshot
self.model.state_dict() of the best model, identified by the epoch at which
it was taken (none models the initial empty placeholder). saves lists the
file paths persisted so far. -/
structure FitState where
  best_vloss : Option ℚ
  best_model : Option ℕ
  count_lr_no_improve : ℕ
  count_early_stop : ℕ
  lr : ℚ
  current_epoch : ℕ
  saves : List String
deriving Repr, DecidableEq

/-- One iteration of the fit epoch loop, lines 386-403, driven by the
validation value v recorded for this epoch (the source reads it back as the
last element of the val_loss series, i.e. the undivided sum that
calc_val_loss records): update best state on strict improvement, otherwise
bump both counters; then run the plateau controller and advance the epoch
counter. Inside fit this code is preceded by the train_one_epoch call whose
unconditional TypeError aborts the run, so fit itself never executes it; it
is embedded here as the per-epoch transition those lines define. -/
def fitEpochStep (args : TrainArgs) (v : ℚ) (s : FitState) : FitState :=
  let improved := vltBest v s.best_vloss
  let p := reduce_lr_on_plateau args s.lr
    (if improved then s.count_lr_no_improve else s.count_lr_no_improve + 1)
  { best_vloss := if improved then some v else s.best_vloss,
    best_model := if improved then some s.current_epoch else s.best_model,
    count_lr_no_improve := p.2,
    count_early_stop := if improved then s.count_early_stop else s.count_early_stop + 1,
    lr := p.1,
    current_epoch := s.current_epoch + 1,
    saves := s.saves }

/-- The best_vloss initialization of fit: torch.inf (none) when the ledger has
no val_loss key, otherwise the minimum of the recorded series; Python min
raises on an empty sequence. -/
def initBest (led : Ledger) : Except String (Option ℚ) :=
  match lookupEntry led "val_loss" with
  | none => Except.ok none
  | some [] => Except.error "ValueError: min() arg is an empty sequence"
  | some (v :: rest) => Except.ok (some (rest.foldl min v))

/-- The state fit starts its epoch loop from: baseline best, empty best
snapshot, both counters zero, the configured learning rate, the caller-given
initial epoch, and nothing persisted yet. -/
def initFitState (b0 : Option ℚ) (initial_epoch : ℕ) (lr0 : ℚ) : FitState :=
  { best_vloss := b0, best_model := none, count_lr_no_improve := 0,
    count_early_stop := 0, lr := lr0, current_epoch := initial_epoch,
    saves := [] }

/-- The single torch.save of fit after the loop: persist the best snapshot at
fit_save_path under homepath. -/
def addFitSave (homepath : String) (s : FitState) : FitState :=
  { s with saves := s.saves ++ [fit_save_path homepath s.current_epoch] }

/-- BaseTrainer.fit: model check (line 370), baseline from previously
recorded val_loss (line 374), then the loop over
range(initial_epoch, max_epochs). If that range is empty the loop body never
runs and control falls through to the single torch.save (line 410), the only
way a call to fit completes. If the range is nonempty, the very first
iteration calls self.train_one_epoch (line 381), whose malformed enumerate
raises TypeError unconditionally, aborting the run before validation, the
plateau controller, the tensorboard push, the epoch increment or any save.
The sequence vl abstracts the per-epoch validation values the datamanager
would yield; no run that completes ever consumes it. -/
def fit (model : Option ℕ) (args : TrainArgs) (vl : ℕ → ℚ) (initial_epoch : ℕ)
    (led : Ledger) (lr0 : ℚ) (homepath : String) : Except String FitState :=
  match model with
  | none => Except.error "model is not defined."
  | some _ =>
      match initBest led with
      | Except.error e => Except.error e
      | Except.ok b0 =>
          if initial_epoch < args.max_epochs then
            Except.error "TypeError: desc is an invalid keyword argument for enumerate()"
          else
            Except.ok (addFitSave homepath (initFitState b0 initial_epoch lr0))

/-- The list of file paths a run of fit persists, none on an error. -/
def fitSaves (model : Option ℕ) (args : TrainArgs) (vl : ℕ → ℚ)
    (initial_epoch : ℕ) (led : Ledger) (lr0 : ℚ) (homepath : String) : Option (List String) :=
  match fit model args vl initial_epoch led lr0 homepath with
  | Except.ok s => some s.saves
  | Except.error _ => none

/-- Sample hyperparameters for concrete instantiations. -/
def exArgs : TrainArgs :=
  { reducelr_patience := 4, reducelr_increment := 1/10, earlystop_patience := 12,
    min_lr := 1/10, max_epochs := 100 }

/-- Sample state about to improve (best so far 2). -/
def exImp : FitState :=
  { best_vloss := some 2, best_model := some 0, count_lr_no_improve := 0,
    count_early_stop := 3, lr := 1, current_epoch := 5, saves := [] }

/-- Sample state about to not improve (best so far 1, incoming loss 1). -/
def exNoImp : FitState :=
  { best_vloss := some 1, best_model := none, count_lr_no_improve := 0,
    count_early_stop := 5, lr := 1, current_epoch := 7, saves := [] }

/-- Hyperparameters of a concrete fit run whose epoch range
range(0, max_epochs) is empty — the only kind of run that completes. -/
def c2args : TrainArgs :=
  { reducelr_patience := 4, reducelr_increment := 1/10, earlystop_patience := 12,
    min_lr := 0, max_epochs := 0 }

/-- The final state of the completed empty-range fit run from an empty prior
ledger, initial epoch 0, initial rate 1 and homepath home: no epoch ran, the
placeholder best snapshot was saved as home/model_1.pt. -/
def wState : FitState :=
  { best_vloss := none, best_model := none, count_lr_no_improve := 0,
    count_early_stop := 0, lr := 1, current_epoch := 0,
    saves := ["home/model_1.pt"] }

/-- Hyperparameters satisfying the claimed early-stop proviso
earlystop_patience <= max_epochs, with a nonempty epoch range. -/
def c3args : TrainArgs :=
  { reducelr_patience := 4, reducelr_increment := 1/10, earlystop_patience := 4,
    min_lr := 0, max_epochs := 5 }

/-- Hyperparameters whose single decay step undershoots min_lr. -/
def c4args : TrainArgs :=
  { reducelr_patience := 4, reducelr_increment := 1/10, earlystop_patience := 12,
    min_lr := 1/10, max_epochs := 100 }

/-- Hyperparameters with a decay increment above 1, for which a decay step
increases the learning rate. -/
def c4inc2 : TrainArgs :=
  { reducelr_patience := 4, reducelr_increment := 2, earlystop_patience := 12,
    min_lr := 1/10, max_epochs := 100 }

/-- Lookup after one adaptive record: the recorded key gains exactly one
element at the end of its series, every other key is untouched. -/
theorem lookup_adaptive (led : Ledger) (key : String) (v : ℚ) (k2 : String) :
    lookupLed (adaptive_record_metrics led key v) k2
      = if k2 = key then lookupLed led k2 ++ [v] else lookupLed led k2 := by
  induction led with
  | nil =>
      by_cases h : k2 = key
      · subst h; simp [adaptive_record_metrics, lookupLed]
      · have h2 : ¬ key = k2 := fun hh => h hh.symm
        simp [adaptive_record_metrics, lookupLed, h, h2]
  | cons hd tl ih =>
      obtain ⟨k, vs⟩ := hd
      by_cases hk : k = key
      · subst hk
        by_cases h2 : k2 = k
        · subst h2; simp [adaptive_record_metrics, lookupLed]
        · have h3 : ¬ k = k2 := fun hh => h2 hh.symm
          simp [adaptive_record_metrics, lookupLed, h2, h3]
      · simp only [adaptive_record_metrics, if_neg hk, lookupLed]
        by_cases h2 : k = k2
        · have h3 : ¬ k2 = key := fun hh => hk (h2.trans hh)
          simp [h2, h3]
        · simp [h2, ih]

/-- Folding an append-only ledger operation stays append-only. -/
theorem foldl_append_only {α : Type} (f : Ledger → α → Ledger)
    (hf : ∀ led a k, ∃ t, lookupLed (f led a) k = lookupLed led k ++ t) :
    ∀ (l : List α) (led : Ledger) (k : String),
      ∃ t, lookupLed (l.foldl f led) k = lookupLed led k ++ t := by
  intro l
  induction l with
  | nil => intro led k; exact ⟨[], by simp⟩
  | cons a l ih =>
      intro led k
      obtain ⟨t1, h1⟩ := hf led a k
      obtain ⟨t2, h2⟩ := ih (f led a) k
      exact ⟨t1 ++ t2, by simp only [List.foldl]; rw [h2, h1, List.append_assoc]⟩

/-- A single name/value recording only ever appends to key series. -/
theorem recordOne_append_only (led : Ledger) (phase n : String) (lv : LossVal) (k : String) :
    ∃ t, lookupLed (recordOne led phase n lv) k = lookupLed led k ++ t := by
  cases lv with
  | scalar x =>
      simp only [recordOne]
      rw [lookup_adaptive]
      by_cases h : k = phase ++ "_" ++ n
      · exact ⟨[x], by simp [h]⟩
      · exact ⟨[], by simp [h]⟩
  | vec xs =>
      simp only [recordOne]
      refine foldl_append_only _ (fun led2 p k2 => ?_) xs.enum led k
      rw [lookup_adaptive]
      by_cases h : k2 = phase ++ "_" ++ n ++ toString (p.1 + 1)
      · exact ⟨[p.2], by simp [h]⟩
      · exact ⟨[], by simp [h]⟩

/-- record_metrics only ever appends: every series of the ledger is extended,
never overwritten, truncated or removed. -/
theorem record_append_only (names : List String) (arg : MetricsArg) (phase : String)
    (led : Ledger) (k : String) :
    ∃ t, lookupLed (record_metrics names arg phase led) k = lookupLed led k ++ t := by
  have h : ∀ (xs : List LossVal) (led2 : Ledger),
      ∃ t, lookupLed (recordPairs names xs phase led2) k = lookupLed led2 k ++ t := by
    intro xs led2
    exact foldl_append_only _ (fun led3 p k2 => recordOne_append_only led3 phase p.1 p.2 k2)
      (List.zip names xs) led2 k
  cases arg with
  | single x => exact h [LossVal.scalar x] led
  | multi xs => exact h xs led

/-- Recording one scalar under one metric name appends it once under
phase_name and leaves every other key series unchanged. -/
theorem lookup_record_single (led : Ledger) (phase n : String) (v : ℚ) :
    lookupLed (record_metrics [n] (MetricsArg.single v) phase led) (phase ++ "_" ++ n)
      = lookupLed led (phase ++ "_" ++ n) ++ [v]
  ∧ ∀ k, k ≠ phase ++ "_" ++ n →
      lookupLed (record_metrics [n] (MetricsArg.single v) phase led) k = lookupLed led k := by
  have e : record_metrics [n] (MetricsArg.single v) phase led
      = adaptive_record_metrics led (phase ++ "_" ++ n) v := rfl
  constructor
  · rw [e, lookup_adaptive]; simp
  · intro k hk; rw [e, lookup_adaptive]; simp [hk]

/-- Appending a digit distinguishes the 1-indexed sibling keys. -/
theorem key_index_ne (s : String) : s ++ "1" ≠ s ++ "2" := by
  intro h
  have h2 : (s ++ "1").data = (s ++ "2").data := by rw [h]
  rw [String.data_append, String.data_append] at h2
  have h3 := List.append_cancel_left h2
  exact absurd h3 (by decide)

/-- Recording the list value [a, b] under one metric name appends a once
under phase_name1 and b once under phase_name2. -/
theorem lookup_record_vec2 (led : Ledger) (phase n : String) (a b : ℚ) :
    lookupLed (record_metrics [n] (MetricsArg.multi [LossVal.vec [a, b]]) phase led)
        (phase ++ "_" ++ n ++ "1")
      = lookupLed led (phase ++ "_" ++ n ++ "1") ++ [a]
  ∧ lookupLed (record_metrics [n] (MetricsArg.multi [LossVal.vec [a, b]]) phase led)
        (phase ++ "_" ++ n ++ "2")
      = lookupLed led (phase ++ "_" ++ n ++ "2") ++ [b] := by
  have e : record_metrics [n] (MetricsArg.multi [LossVal.vec [a, b]]) phase led
      = adaptive_record_metrics
          (adaptive_record_metrics led (phase ++ "_" ++ n ++ toString (1 : ℕ)) a)
          (phase ++ "_" ++ n ++ toString (2 : ℕ)) b := rfl
  have d1 : toString (1 : ℕ) = "1" := rfl
  have d2 : toString (2 : ℕ) = "2" := rfl
  rw [d1, d2] at e
  have hne := key_index_ne (phase ++ "_" ++ n)
  constructor
  · rw [e, lookup_adaptive, if_neg hne, lookup_adaptive, if_pos rfl]
  · rw [e, lookup_adaptive, if_pos rfl, lookup_adaptive, if_neg (Ne.symm hne)]

/-- Successive scalar recordings accumulate in order on the metric series. -/
theorem lookup_record_iter (phase n : String) :
    ∀ (vs : List ℚ) (led : Ledger),
      lookupLed (vs.foldl (fun l v => record_metrics [n] (MetricsArg.single v) phase l) led)
          (phase ++ "_" ++ n)
        = lookupLed led (phase ++ "_" ++ n) ++ vs := by
  intro vs
  induction vs with
  | nil => intro led; simp
  | cons v vs ih =>
      intro led
      simp only [List.foldl]
      rw [ih, (lookup_record_single led phase n v).1, List.append_assoc]
      rfl

/-- C7: record_metrics with phase p appends a scalar paired with name n once
under key p_n; a list value [a, b] paired with name n appends element i once
under the 1-indexed key p_n(i+1), e.g. keys p_n1 and p_n2; recording only
appends, never overwriting or removing previously recorded entries; and after
N scalar recordings a metric series has exactly N more elements, so N
recorded epochs give N elements per metric. -/
theorem C7_record_metrics :
    (∀ (led : Ledger) (phase n : String) (v : ℚ),
       lookupLed (record_metrics [n] (MetricsArg.single v) phase led) (phase ++ "_" ++ n)
         = lookupLed led (phase ++ "_" ++ n) ++ [v]
     ∧ ∀ k, k ≠ phase ++ "_" ++ n →
         lookupLed (record_metrics [n] (MetricsArg.single v) phase led) k = lookupLed led k)
  ∧ (∀ (led : Ledger) (phase n : String) (a b : ℚ),
       lookupLed (record_metrics [n] (MetricsArg.multi [LossVal.vec [a, b]]) phase led)
           (phase ++ "_" ++ n ++ "1")
         = lookupLed led (phase ++ "_" ++ n ++ "1") ++ [a]
     ∧ lookupLed (record_metrics [n] (MetricsArg.multi [LossVal.vec [a, b]]) phase led)
           (phase ++ "_" ++ n ++ "2")
         = lookupLed led (phase ++ "_" ++ n ++ "2") ++ [b])
  ∧ (∀ (names : List String) (arg : MetricsArg) (phase : String) (led : Ledger) (k : String),
       ∃ t, lookupLed (record_metrics names arg phase led) k = lookupLed led k ++ t)
  ∧ (∀ (vs : List ℚ) (phase n : String) (led : Ledger),
       (lookupLed (vs.foldl (fun l v => record_metrics [n] (MetricsArg.single v) phase l) led)
           (phase ++ "_" ++ n)).length
         = (lookupLed led (phase ++ "_" ++ n)).length + vs.length) := by
  refine ⟨lookup_record_single, lookup_record_vec2, record_append_only, ?_⟩
  intro vs phase n led
  rw [lookup_record_iter phase n vs led, List.length_append]

/-- Witness for C7: recording a scalar under name loss, phase train, leaves an
unrelated key untouched. -/
theorem C7_record_metrics_witness :
    lookupLed (record_metrics ["loss"] (MetricsArg.single 2) "train" []) "other"
      = lookupLed ([] : Ledger) "other" :=
  (C7_record_metrics.1 [] "train" "loss" 2).2 "other" (by decide)

/-- C1 is a code bug, shown by evaluating the epoch runners: with a bound
model train_one_epoch raises TypeError from the malformed enumerate call on
every loader — including the two-batch loader with per-batch losses 2 and 4
— so it never records any per-batch mean; calc_val_loss does run, but
records the undivided accumulated sum 6 where the claimed mean over batches
is (2 + 4) / 2 = 3. -/
theorem C1_code_eval :
    train_one_epoch ["loss"] (some 0) [[2], [4]] []
      = Except.error "TypeError: desc is an invalid keyword argument for enumerate()"
  ∧ calc_val_loss ["loss"] (some 0) [[2], [4]] [] = Except.ok [("val_loss", [6])]
  ∧ ((2 : ℚ) + 4) / 2 = 3 ∧ (3 : ℚ) ≠ 6 :=
  ⟨rfl, by with_unfolding_all rfl, by norm_num, by norm_num⟩

/-- C9: each of train_one_epoch, calc_val_loss and set_optimizer raises its
not-initialized ValueError exactly when no model is bound to the trainer;
with a bound model none of them produces that error: train_one_epoch instead
fails with its unconditional TypeError (a different exception), while
calc_val_loss and set_optimizer succeed. The model check precedes every
mutation, so an erroring call returns no updated ledger by construction. -/
theorem C9_not_initialized (names : List String) (batches : List (List ℚ))
    (led : Ledger) (m : Option ℕ) :
    (train_one_epoch names m batches led = Except.error "model is not defined." ↔ m = none)
  ∧ (calc_val_loss names m batches led = Except.error "model is not defined." ↔ m = none)
  ∧ (set_optimizer m = Except.error "self.model attribute is not initialized..." ↔ m = none)
  ∧ (∀ k, m = some k →
       train_one_epoch names m batches led
         = Except.error "TypeError: desc is an invalid keyword argument for enumerate()") := by
  cases m with
  | none =>
      exact ⟨⟨fun _ => rfl, fun _ => rfl⟩, ⟨fun _ => rfl, fun _ => rfl⟩,
        ⟨fun _ => rfl, fun _ => rfl⟩, fun k hk => by cases hk⟩
  | some k =>
      refine ⟨⟨fun h => ?_, fun h => by cases h⟩,
        ⟨fun h => by simp [calc_val_loss] at h, fun h => by cases h⟩,
        ⟨fun h => by simp [set_optimizer] at h, fun h => by cases h⟩,
        fun k2 hk => rfl⟩
      injection h with h2
      exact absurd h2 (by decide)

/-- Witness for C9: calling train_one_epoch with no model bound raises the
not-initialized error. -/
theorem C9_not_initialized_witness :
    train_one_epoch ["loss"] none [[1]] [] = Except.error "model is not defined." :=
  (C9_not_initialized ["loss"] [[1]] [] none).1.mpr rfl

/-- An epoch whose validation value does not improve leaves the best state
untouched and bumps the early-stop and epoch counters by one. -/
theorem step_no_improve (args : TrainArgs) (v : ℚ) (s : FitState)
    (h : vltBest v s.best_vloss = false) :
    (fitEpochStep args v s).best_vloss = s.best_vloss
  ∧ (fitEpochStep args v s).best_model = s.best_model
  ∧ (fitEpochStep args v s).count_early_stop = s.count_early_stop + 1
  ∧ (fitEpochStep args v s).current_epoch = s.current_epoch + 1
  ∧ (fitEpochStep args v s).saves = s.saves := by
  refine ⟨?_, ?_, ?_, ?_, ?_⟩ <;> simp [fitEpochStep, h]

/-- An epoch whose validation value strictly improves takes a fresh snapshot
and leaves the early-stop counter alone. -/
theorem step_improve (args : TrainArgs) (v : ℚ) (s : FitState)
    (h : vltBest v s.best_vloss = true) :
    (fitEpochStep args v s).best_vloss = some v
  ∧ (fitEpochStep args v s).best_model = some s.current_epoch
  ∧ (fitEpochStep args v s).count_early_stop = s.count_early_stop
  ∧ (fitEpochStep args v s).current_epoch = s.current_epoch + 1 := by
  refine ⟨?_, ?_, ?_, ?_⟩ <;> simp [fitEpochStep, h]

/-- The no-improve counter and learning rate after an epoch are exactly what
the plateau controller returns on the post-validation counter. -/
theorem step_clr (args : TrainArgs) (v : ℚ) (s : FitState) :
    (fitEpochStep args v s).count_lr_no_improve
      = (reduce_lr_on_plateau args s.lr
          (if vltBest v s.best_vloss then s.count_lr_no_improve
           else s.count_lr_no_improve + 1)).2
  ∧ (fitEpochStep args v s).lr
      = (reduce_lr_on_plateau args s.lr
          (if vltBest v s.best_vloss then s.count_lr_no_improve
           else s.count_lr_no_improve + 1)).1 :=
  ⟨rfl, rfl⟩

/-- The plateau controller either fires its decay branch, exactly when the
counter has reached patience while the rate is above the floor, or passes
rate and counter through unchanged. -/
theorem reduce_cases (args : TrainArgs) (lr : ℚ) (c : ℕ) :
    (args.reducelr_patience ≤ c ∧ args.min_lr < lr
       ∧ reduce_lr_on_plateau args lr c = (lr * args.reducelr_increment, 0))
  ∨ (¬ (args.reducelr_patience ≤ c ∧ args.min_lr < lr)
       ∧ reduce_lr_on_plateau args lr c = (lr, c)) := by
  by_cases h1 : args.reducelr_patience ≤ c
  · by_cases h2 : args.min_lr < lr
    · exact Or.inl ⟨h1, h2, by simp [reduce_lr_on_plateau, h1, h2]⟩
    · exact Or.inr ⟨fun hh => h2 hh.2, by simp [reduce_lr_on_plateau, h1, h2]⟩
  · exact Or.inr ⟨fun hh => h1 hh.1, by simp [reduce_lr_on_plateau, h1]⟩

/-- C6: in every epoch of fit the best snapshot and the best recorded
validation loss are updated exactly when the epoch validation loss is
strictly below the best so far, and on equality or increase both are left
unchanged (against a finite best, the improvement test is the strict
comparison). -/
theorem C6_best_update (args : TrainArgs) (v : ℚ) (s : FitState) :
    (vltBest v s.best_vloss = true →
       (fitEpochStep args v s).best_vloss = some v
       ∧ (fitEpochStep args v s).best_model = some s.current_epoch)
  ∧ (vltBest v s.best_vloss = false →
       (fitEpochStep args v s).best_vloss = s.best_vloss
       ∧ (fitEpochStep args v s).best_model = s.best_model)
  ∧ (∀ b, s.best_vloss = some b → (vltBest v s.best_vloss = true ↔ v < b)) := by
  refine ⟨fun h => ⟨(step_improve args v s h).1, (step_improve args v s h).2.1⟩,
    fun h => ⟨(step_no_improve args v s h).1, (step_no_improve args v s h).2.1⟩, ?_⟩
  intro b hb
  rw [hb]
  simp [vltBest]

/-- Witness for C6: improving on a best of 2 with loss 1 replaces snapshot
and best value. -/
theorem C6_best_update_witness :
    (fitEpochStep exArgs 1 exImp).best_vloss = some 1
    ∧ (fitEpochStep exArgs 1 exImp).best_model = some exImp.current_epoch :=
  (C6_best_update exArgs 1 exImp).1 (by with_unfolding_all rfl)

/-- C5: per epoch of fit, the early-stop counter increments exactly on
non-improvement; on improvement the no-improve counter keeps its value
(using the fit-reachable invariant that a counter at or above patience
coexists only with a rate at or below min_lr); the counter is reset to 0
exactly in the decay branch, i.e. when the post-validation counter has
reached reducelr_patience while the rate exceeds min_lr, the rate then being
multiplied by reducelr_increment, and otherwise rate and counter pass through
unchanged; the invariant is preserved by every epoch step. -/
theorem C5_counters (args : TrainArgs) (v : ℚ) (s : FitState)
    (hinv : 1 ≤ s.count_lr_no_improve → args.reducelr_patience ≤ s.count_lr_no_improve →
      s.lr ≤ args.min_lr) :
    ((fitEpochStep args v s).count_early_stop
       = if vltBest v s.best_vloss then s.count_early_stop else s.count_early_stop + 1)
  ∧ (vltBest v s.best_vloss = true →
       (fitEpochStep args v s).count_lr_no_improve = s.count_lr_no_improve)
  ∧ (∀ c, args.reducelr_patience ≤ c → args.min_lr < s.lr →
       reduce_lr_on_plateau args s.lr c = (s.lr * args.reducelr_increment, 0))
  ∧ (∀ c, ¬ (args.reducelr_patience ≤ c ∧ args.min_lr < s.lr) →
       reduce_lr_on_plateau args s.lr c = (s.lr, c))
  ∧ (vltBest v s.best_vloss = false →
       ¬ (args.reducelr_patience ≤ s.count_lr_no_improve + 1 ∧ args.min_lr < s.lr) →
       (fitEpochStep args v s).count_lr_no_improve = s.count_lr_no_improve + 1)
  ∧ (1 ≤ (fitEpochStep args v s).count_lr_no_improve →
       args.reducelr_patience ≤ (fitEpochStep args v s).count_lr_no_improve →
       (fitEpochStep args v s).lr ≤ args.min_lr) := by
  have hstep := step_clr args v s
  refine ⟨?_, ?_, ?_, ?_, ?_, ?_⟩
  · cases h : vltBest v s.best_vloss <;> simp [fitEpochStep, h]
  · intro h
    rw [hstep.1, if_pos h]
    rcases reduce_cases args s.lr s.count_lr_no_improve with ⟨h1, h2, he⟩ | ⟨hn, he⟩
    · rw [he]
      by_cases hz : 1 ≤ s.count_lr_no_improve
      · exact absurd (hinv hz h1) (not_le.mpr h2)
      · omega
    · rw [he]
  · intro c h1 h2
    simp [reduce_lr_on_plateau, h1, h2]
  · intro c h
    rcases reduce_cases args s.lr c with ⟨h1, h2, he⟩ | ⟨hn, he⟩
    · exact absurd ⟨h1, h2⟩ h
    · exact he
  · intro h hn
    rw [hstep.1, if_neg (by simp [h])]
    rcases reduce_cases args s.lr (s.count_lr_no_improve + 1) with ⟨h1, h2, he⟩ | ⟨hn2, he⟩
    · exact absurd ⟨h1, h2⟩ hn
    · rw [he]
  · intro h1 h2
    rw [hstep.1] at h1 h2
    rw [hstep.2]
    rcases reduce_cases args s.lr
        (if vltBest v s.best_vloss then s.count_lr_no_improve
         else s.count_lr_no_improve + 1) with ⟨hp, hl, he⟩ | ⟨hn, he⟩
    · rw [he] at h1
      exact absurd h1 (by omega)
    · rw [he] at h2 ⊢
      exact le_of_not_lt (fun hl => hn ⟨h2, hl⟩)

/-- Witness for C5: at patience with rate above the floor, the decay branch
multiplies the rate by the increment and resets the counter. -/
theorem C5_counters_witness :
    reduce_lr_on_plateau exArgs exNoImp.lr 4 = (exNoImp.lr * exArgs.reducelr_increment, 0) :=
  (C5_counters exArgs 1 exNoImp (fun h1 _ => absurd h1 (by decide))).2.2.1 4
    (by decide) (by norm_num [exArgs, exNoImp])

/-- One plateau-controller call never increases a nonnegative rate when the
increment lies in the unit interval, and keeps it nonnegative. -/
theorem reduce_lr_le (args : TrainArgs) (lr : ℚ) (c : ℕ)
    (h0 : 0 ≤ args.reducelr_increment) (h1 : args.reducelr_increment ≤ 1) (h2 : 0 ≤ lr) :
    (reduce_lr_on_plateau args lr c).1 ≤ lr ∧ 0 ≤ (reduce_lr_on_plateau args lr c).1 := by
  rcases reduce_cases args lr c with ⟨hp, hl, he⟩ | ⟨hn, he⟩
  · rw [he]
    exact ⟨mul_le_of_le_one_right h2 h1, mul_nonneg h2 h0⟩
  · rw [he]
    exact ⟨le_refl lr, h2⟩

/-- A run of fit whose epoch range is nonempty aborts with the TypeError of
its first train_one_epoch call (once the baseline initialization has
succeeded), persisting nothing. -/
theorem fit_nonempty_range_error (m : ℕ) (args : TrainArgs) (vl : ℕ → ℚ) (e0 : ℕ)
    (led : Ledger) (lr0 : ℚ) (homepath : String) (b0 : Option ℚ)
    (hlt : e0 < args.max_epochs) (hb : initBest led = Except.ok b0) :
    fit (some m) args vl e0 led lr0 homepath
      = Except.error "TypeError: desc is an invalid keyword argument for enumerate()" := by
  have e : fit (some m) args vl e0 led lr0 homepath
      = (if e0 < args.max_epochs then
           Except.error "TypeError: desc is an invalid keyword argument for enumerate()"
         else Except.ok (addFitSave homepath (initFitState b0 e0 lr0))) := by
    unfold fit
    rw [hb]
  rw [e, if_pos hlt]

/-- C4 amended: a decay (multiplication by reducelr_increment) is applied
only while the current learning rate exceeds min_lr — at or below min_lr the
controller passes rate and counter through unchanged — and a controller call
never increases a nonnegative rate provided 0 <= reducelr_increment <= 1
(with an increment above 1 a decay increases the rate, and the decayed rate
can land strictly below min_lr: see the counterexample). Moreover NO
uninterrupted run of fit exercises the controller at all: any run with a
nonempty epoch range aborts with the TypeError of its first training call. -/
theorem C4_amended (args : TrainArgs)
    (h0 : 0 ≤ args.reducelr_increment) (h1 : args.reducelr_increment ≤ 1) :
    (∀ (lr : ℚ) (c : ℕ), 0 ≤ lr → (reduce_lr_on_plateau args lr c).1 ≤ lr)
  ∧ (∀ (lr : ℚ) (c : ℕ), lr ≤ args.min_lr → reduce_lr_on_plateau args lr c = (lr, c))
  ∧ (∀ (m : ℕ) (vl : ℕ → ℚ) (e0 : ℕ) (led : Ledger) (lr0 : ℚ) (homepath : String)
       (b0 : Option ℚ), e0 < args.max_epochs → initBest led = Except.ok b0 →
       fit (some m) args vl e0 led lr0 homepath
         = Except.error "TypeError: desc is an invalid keyword argument for enumerate()") := by
  refine ⟨?_, ?_, ?_⟩
  · intro lr c h2
    exact (reduce_lr_le args lr c h0 h1 h2).1
  · intro lr c h
    rcases reduce_cases args lr c with ⟨hp, hl, he⟩ | ⟨hn, he⟩
    · exact absurd h (not_le.mpr hl)
    · exact he
  · intro m vl e0 led lr0 homepath b0 hlt hb
    exact fit_nonempty_range_error m args vl e0 led lr0 homepath b0 hlt hb

/-- C4 counterexample: with min_lr = 1/10 and current rate 1/5 above it, the
decay branch (counter at patience) multiplies the rate down to 1/50, which
is strictly BELOW min_lr — refuting that the resulting learning rate never
goes below min_lr; and with reducelr_increment = 2 the same branch INCREASES
the rate from 1 to 2 — refuting unconditional monotonicity and forcing the
increment bound of the amendment. -/
theorem C4_counterexample :
    c4args.min_lr < (1 : ℚ) / 5
  ∧ (reduce_lr_on_plateau c4args ((1 : ℚ) / 5) 4).1 < c4args.min_lr
  ∧ (1 : ℚ) < (reduce_lr_on_plateau c4inc2 1 4).1 := by
  refine ⟨?_, ?_, ?_⟩
  · norm_num [c4args]
  · norm_num [c4args, reduce_lr_on_plateau]
  · norm_num [c4inc2, reduce_lr_on_plateau]

/-- Witness for C4: a rate already at or below the floor passes through the
controller unchanged. -/
theorem C4_amended_witness :
    reduce_lr_on_plateau c4args ((1 : ℚ) / 20) 7 = ((1 : ℚ) / 20, 7) :=
  (C4_amended c4args (by norm_num [c4args]) (by norm_num [c4args])).2.1
    ((1 : ℚ) / 20) 7 (by norm_num [c4args])

/-- C2 amended: the only calls to fit that complete are those whose epoch
range range(initial_epoch, max_epochs) is empty — any run with at least one
epoch aborts with the TypeError of its first training call and persists
nothing. A completed call persists exactly one file, at termination: the
(placeholder) best snapshot, written directly under homepath — NOT under the
checkpoints subdirectory — named model_ followed by final epoch + 1 and .pt,
the final epoch being initial_epoch. -/
theorem C2_amended (m : ℕ) (args : TrainArgs) (vl : ℕ → ℚ) (e0 : ℕ) (led : Ledger)
    (lr0 : ℚ) (homepath : String) :
    (∀ s, fit (some m) args vl e0 led lr0 homepath = Except.ok s →
       s.saves = [fit_save_path homepath s.current_epoch]
       ∧ s.current_epoch = e0 ∧ args.max_epochs ≤ e0)
  ∧ (e0 < args.max_epochs → ∀ b0, initBest led = Except.ok b0 →
       fit (some m) args vl e0 led lr0 homepath
         = Except.error "TypeError: desc is an invalid keyword argument for enumerate()") := by
  constructor
  · intro s h
    cases hb : initBest led with
    | error e2 =>
        have e : fit (some m) args vl e0 led lr0 homepath = Except.error e2 := by
          unfold fit
          rw [hb]
        rw [e] at h
        exact Except.noConfusion h
    | ok b0 =>
        have e : fit (some m) args vl e0 led lr0 homepath
            = (if e0 < args.max_epochs then
                 Except.error "TypeError: desc is an invalid keyword argument for enumerate()"
               else Except.ok (addFitSave homepath (initFitState b0 e0 lr0))) := by
          unfold fit
          rw [hb]
        rw [e] at h
        by_cases hlt : e0 < args.max_epochs
        · rw [if_pos hlt] at h
          exact Except.noConfusion h
        · rw [if_neg hlt] at h
          injection h with h2
          subst h2
          exact ⟨by simp [addFitSave, initFitState], rfl, by omega⟩
  · intro hlt b0 hb
    exact fit_nonempty_range_error m args vl e0 led lr0 homepath b0 hlt hb

/-- C2 counterexample: the completed empty-range fit run with homepath home
persists its single snapshot at home/model_1.pt, which lies directly under
homepath and NOT under the checkpoints directory home/checkpoints created by
init_savepath — the claim instead places the file under the checkpoints
path. -/
theorem C2_counterexample :
    fitSaves (some 0) c2args (fun _ => 1) 0 [] 1 "home" = some ["home/model_1.pt"]
  ∧ ("checkpoints", "home/checkpoints") ∈ init_savepath "home"
  ∧ strStarts "home/checkpoints" "home/model_1.pt" = false
  ∧ strStarts "home/" "home/model_1.pt" = true := by
  refine ⟨by with_unfolding_all rfl, ?_, by with_unfolding_all rfl, by with_unfolding_all rfl⟩
  have e : init_savepath "home"
      = [("checkpoints", "home/checkpoints"), ("embeddings", "home/embeddings"),
         ("ft_analysis", "home/ft_analysis"), ("umaps", "home/umaps"),
         ("visualization", "home/visualization")] := by with_unfolding_all rfl
  rw [e]
  exact List.mem_cons_self _ _

/-- Witness for C2: the concrete completed empty-range run ends at epoch 0
and persists exactly the single file home/model_1.pt named from that final
epoch. -/
theorem C2_amended_witness :
    wState.saves = [fit_save_path "home" wState.current_epoch]
    ∧ wState.current_epoch = 0 ∧ c2args.max_epochs ≤ 0 :=
  (C2_amended 0 c2args (fun _ => 1) 0 [] 1 "home").1 wState (by with_unfolding_all rfl)

/-- C3 is a code bug: fit never reaches its early-stop logic. With
earlystop_patience = 4 <= max_epochs = 5 (the claimed proviso), a prior best
of 1 and a constant would-be validation loss 1 (never improving), fit raises
TypeError from the train_one_epoch call of its very first epoch, before any
validation is computed — so no run ever accumulates earlystop_patience
non-improving epochs or terminates at initial_epoch + earlystop_patience.
The last conjunct evaluates the aborting call itself. -/
theorem C3_code_eval :
    fit (some 0) c3args (fun _ => 1) 0 [("val_loss", [1])] 1 "home"
      = Except.error "TypeError: desc is an invalid keyword argument for enumerate()"
  ∧ c3args.earlystop_patience ≤ c3args.max_epochs
  ∧ train_one_epoch ["loss"] (some 0) [[1]] []
      = Except.error "TypeError: desc is an invalid keyword argument for enumerate()"
  ∧ vltBest 1 (some 1) = false :=
  ⟨by with_unfolding_all rfl, by decide, rfl, by with_unfolding_all rfl⟩

/-- The left fold of min stays at or below its seed and every element. -/
theorem foldl_min_le (l : List ℚ) :
    ∀ (a : ℚ), l.foldl min a ≤ a ∧ ∀ x ∈ l, l.foldl min a ≤ x := by
  induction l with
  | nil =>
      intro a
      exact ⟨le_refl a, by simp⟩
  | cons b t ih =>
      intro a
      have h := ih (min a b)
      refine ⟨le_trans h.1 (min_le_left a b), ?_⟩
      intro x hx
      rcases List.mem_cons.mp hx with hx | hx
      · rw [hx]
        exact le_trans h.1 (min_le_right a b)
      · exact h.2 x hx

/-- The left fold of min is the seed or one of the elements. -/
theorem foldl_min_mem (l : List ℚ) :
    ∀ (a : ℚ), l.foldl min a = a ∨ l.foldl min a ∈ l := by
  induction l with
  | nil => intro a; exact Or.inl rfl
  | cons b t ih =>
      intro a
      have e : (b :: t).foldl min a = t.foldl min (min a b) := rfl
      rcases ih (min a b) with h | h
      · rcases min_choice a b with h2 | h2
        · exact Or.inl (by rw [e, h, h2])
        · refine Or.inr ?_
          rw [e, h, h2]
          exact List.mem_cons_self b t
      · refine Or.inr ?_
        rw [e]
        exact List.mem_cons_of_mem b h

/-- C10: fit initializes the best-validation baseline to infinity (none)
exactly when the ledger has no val_loss key; with a recorded nonempty series
it is the minimum of that series (a member, at or below every recorded
value); against a finite best, a snapshot update fires only for a value
strictly below it; and the running best never increases across an epoch step
— so any later snapshot replacement is strictly below every validation loss
recorded by earlier runs. -/
theorem C10_init_best (led : Ledger) :
    (lookupEntry led "val_loss" = none → initBest led = Except.ok none)
  ∧ (∀ (v : ℚ) (rest : List ℚ), lookupEntry led "val_loss" = some (v :: rest) →
       initBest led = Except.ok (some (rest.foldl min v))
       ∧ (∀ x ∈ v :: rest, rest.foldl min v ≤ x)
       ∧ rest.foldl min v ∈ v :: rest)
  ∧ (∀ (w b : ℚ) (s : FitState), s.best_vloss = some b →
       vltBest w s.best_vloss = true → w < b)
  ∧ (∀ (args : TrainArgs) (w : ℚ) (s : FitState) (b : ℚ), s.best_vloss = some b →
       ∃ b2, (fitEpochStep args w s).best_vloss = some b2 ∧ b2 ≤ b) := by
  refine ⟨?_, ?_, ?_, ?_⟩
  · intro h
    unfold initBest
    rw [h]
  · intro v rest h
    refine ⟨by unfold initBest; rw [h], ?_, ?_⟩
    · intro x hx
      rcases List.mem_cons.mp hx with hx | hx
      · subst hx
        exact (foldl_min_le rest x).1
      · exact (foldl_min_le rest v).2 x hx
    · rcases foldl_min_mem rest v with h2 | h2
      · rw [h2]
        exact List.mem_cons_self v rest
      · exact List.mem_cons_of_mem v h2
  · intro w b s hb h
    rw [hb] at h
    simpa [vltBest] using h
  · intro args w s b hb
    by_cases h : vltBest w s.best_vloss = true
    · refine ⟨w, (step_improve args w s h).1, ?_⟩
      rw [hb] at h
      exact le_of_lt (by simpa [vltBest] using h)
    · have hf : vltBest w s.best_vloss = false := by
        cases hx : vltBest w s.best_vloss
        · rfl
        · exact absurd hx h
      refine ⟨b, ?_, le_refl b⟩
      rw [(step_no_improve args w s hf).1, hb]

/-- Witness for C10: a prior val_loss series [3, 1, 2] makes the baseline its
minimum. -/
theorem C10_init_best_witness :
    initBest [("val_loss", [3, 1, 2])] = Except.ok (some ([1, 2].foldl min 3)) :=
  ((C10_init_best [("val_loss", [3, 1, 2])]).2.1 3 [1, 2] rfl).1

/-- C8 amended: the per-epoch tensorboard push contains exactly the latest
recorded value of every ledger metric whose key does not contain the
substring test — which INCLUDES validation metrics, whose keys start with
val — and nothing else; the claim that no validation metric is pushed is
refuted by the counterexample. -/
theorem C8_amended (led : Ledger) :
    (∀ (k : String) (vs : List ℚ), (k, vs) ∈ led → strContains k "test" = false →
       (k, vs.getLastD 0) ∈ write_payload led)
  ∧ (∀ (k : String) (x : ℚ), (k, x) ∈ write_payload led →
       strContains k "test" = false
       ∧ ∃ vs, (k, vs) ∈ led ∧ x = vs.getLastD 0) := by
  constructor
  · intro k vs hm hf
    unfold write_payload
    refine List.mem_filterMap.mpr ⟨(k, vs), hm, ?_⟩
    simp [hf]
  · intro k x hm
    obtain ⟨⟨k2, vs⟩, hmem, hf⟩ := List.mem_filterMap.mp hm
    by_cases hc : strContains k2 "test" = true
    · rw [if_pos hc] at hf
      exact absurd hf (by simp)
    · rw [if_neg hc] at hf
      simp only [Option.some.injEq, Prod.mk.injEq] at hf
      obtain ⟨hk, hx⟩ := hf
      subst hk
      have hfalse : strContains k2 "test" = false := by
        cases hcase : strContains k2 "test"
        · rfl
        · exact absurd hcase hc
      exact ⟨hfalse, vs, hmem, hx.symm⟩

/-- C8 counterexample: recording the scalar 3 under name loss in phase val
creates the validation key val_loss, and the tensorboard payload pushes it —
the source filter only removes keys containing the substring test —
contradicting the claim that no validation metric is pushed. -/
theorem C8_counterexample :
    write_payload (record_metrics ["loss"] (MetricsArg.single 3) "val" [])
      = [("val_loss", 3)]
  ∧ ("val_loss", (3 : ℚ)) ∈ write_payload [("val_loss", [3]), ("train_loss", [5])] := by
  constructor
  · with_unfolding_all rfl
  · have e : write_payload [("val_loss", [3]), ("train_loss", [5])]
        = [("val_loss", (3 : ℚ)), ("train_loss", 5)] := by with_unfolding_all rfl
    rw [e]
    exact List.mem_cons_self _ _

/-- Witness for C8: a key free of the substring test is pushed with its
latest value. -/
theorem C8_amended_witness :
    ("val_loss", List.getLastD [3] 0) ∈ write_payload [("val_loss", [(3 : ℚ)])] :=
  (C8_amended [("val_loss", [3])]).1 "val_loss" [3] (List.mem_singleton.mpr rfl)
    (by with_unfolding_all rfl)
